import Mathlib

/-
Verification development for the ToMoBAR demo repository.

The repository ships two demo scripts (DemoFISTA_2D.py and
DemoFISTA_artifacts2D.py) that drive the tomobar iterative-reconstruction
toolbox.  The solver itself (tomobar.methodsIR: FISTA, powermethod) is code
of the project that is not present in this snapshot, so it is modelled here
from the specification; the demo scripts' own data handling and call-site
configuration are embedded directly from the source.
-/

noncomputable section

open scoped Classical

namespace ToMoBAR

/-! ## Part 1: direct embedding of the demo scripts (rational arithmetic) -/

/-- Elementwise clamp of a 2D sinogram array, embedding line 74 of
DemoFISTA_artifacts2D.py: every entry strictly below zero is set to zero,
all other entries are kept. -/
def clampSino (s : List (List ℚ)) : List (List ℚ) :=
  s.map (fun row => row.map (fun v => if v < 0 then 0 else v))

/-- The value of the variable noisy_zing_stripe after line 74 of
DemoFISTA_artifacts2D.py, as a function of the raw noisy/zinger/stripe
sinogram produced by the (external) artifact generators at lines 72-73.
The variable is never reassigned afterwards, so this is the sinogram
passed to FBP at line 93 and to every FISTA call at lines 134, 155, 201,
219 and 266. -/
def noisyZingStripe (raw : List (List ℚ)) : List (List ℚ) :=
  clampSino raw

/-- Constructor arguments of a RecToolsIR object as supplied by the demo
scripts (the fields the claims are about). -/
structure RecToolsIRConfig where
  datafidelity : String
  nonnegativity : String
  OS_number : Option Nat
  tolerance : ℚ

/-- Keyword arguments of one RecToolsIR.FISTA call in the demo scripts
(the fields the claims are about; None models an argument left at its
default). -/
structure FISTACallKwargs where
  iterationsFISTA : Nat
  huber_data_threshold : Option ℚ
  lambdaR_L1 : Option ℚ
  alpha_ring : Option ℚ
  regularisation : Option String
  regularisation_parameter : Option ℚ
  regularisation_iterations : Option Nat

/-- The RecToolsIR configuration built at lines 144-153 of
DemoFISTA_artifacts2D.py (the Huber section). -/
def huberSectionConfig : RecToolsIRConfig :=
  { datafidelity := "LS", nonnegativity := "ENABLE",
    OS_number := none, tolerance := 1/1000000 }

/-- The FISTA call at lines 155-160 of DemoFISTA_artifacts2D.py: the Huber
fidelity is requested through the per-call numeric argument
huber_data_threshold = 4.0. -/
def huberCall : FISTACallKwargs :=
  { iterationsFISTA := 350, huber_data_threshold := some 4,
    lambdaR_L1 := none, alpha_ring := none,
    regularisation := some "ROF_TV",
    regularisation_parameter := some (3/1000),
    regularisation_iterations := none }

/-- The RecToolsIR configuration built at lines 252-261 of
DemoFISTA_artifacts2D.py (the Group-Huber section). -/
def ghSectionConfig : RecToolsIRConfig :=
  { datafidelity := "LS", nonnegativity := "ENABLE",
    OS_number := none, tolerance := 1/1000000 }

/-- The FISTA call at lines 266-273 of DemoFISTA_artifacts2D.py: the
Group-Huber ring-aware fidelity is requested through the per-call numeric
arguments lambdaR_L1 = 0.0025 and alpha_ring = 150. -/
def ghCall : FISTACallKwargs :=
  { iterationsFISTA := 150, huber_data_threshold := none,
    lambdaR_L1 := some (25/10000), alpha_ring := some 150,
    regularisation := some "ROF_TV",
    regularisation_parameter := some (1/100),
    regularisation_iterations := some 80 }

/-! ## Part 2: the spec-modelled reconstruction core (real arithmetic)

Modelled from the spec: the FISTA solver, ordered-subsets driver,
data-fidelity gradients, input validation and power-method Lipschitz
estimator of tomobar.methodsIR are code of this project absent from the
snapshot; the definitions below follow sections 3, 4, 6 and 7 of the
specification. -/

/-- A reconstruction estimate: a flattened image, one real per pixel. -/
abbrev Image := List ℝ

/-- A sinogram: one row of detector readings per projection angle. -/
abbrev Sinogram := List (List ℝ)

/-- An ordered sequence of projection angles in radians. -/
abbrev AngleSet := List ℝ

/-- Modelled from the spec: the external Projector collaborator, a pure
pair of forward-projection and adjoint back-projection maps determined by
the geometry (section 6). -/
structure Projector where
  forward : Image → AngleSet → Sinogram
  backward : Sinogram → AngleSet → Image

/-- Modelled from the spec: the external Regularizer collaborator,
`proximal(image, weight, inner_iterations) -> image` (section 6). -/
abbrev Regularizer := Image → ℝ → Nat → Image

/-- Elementwise sum of two vectors. -/
def vadd (a b : Image) : Image := List.zipWith (fun x y => x + y) a b

/-- Elementwise difference of two vectors. -/
def vsub (a b : Image) : Image := List.zipWith (fun x y => x - y) a b

/-- Scalar multiple of a vector. -/
def smul (c : ℝ) (v : Image) : Image := v.map (fun x => c * x)

/-- Elementwise nonnegativity clamp. -/
def clamp0 (v : Image) : Image := v.map (fun x => max x 0)

/-- Sum of squares of a vector. -/
def normSq (v : Image) : ℝ := (v.map (fun x => x * x)).sum

/-- Euclidean norm of a vector. -/
def norm2 (v : Image) : ℝ := Real.sqrt (normSq v)

/-- Rowwise difference of two sinograms. -/
def sinoSub (a b : Sinogram) : Sinogram := List.zipWith vsub a b

/-- Rowwise Hadamard (elementwise) product of two sinograms. -/
def sinoMul (a b : Sinogram) : Sinogram :=
  List.zipWith (fun r s => List.zipWith (fun x y => x * y) r s) a b

/-- Modelled from the spec: a fidelity configuration carrying the selected
kind together with the numeric parameters each kind requires (section 3;
the kind is a plain string so that an unrecognized kind is representable,
as the error taxonomy of section 7 requires and as the demos' string-based
interface does). -/
structure FidelityConfig where
  kind : String
  huberThreshold : ℝ
  pwlsWeights : Sinogram
  lambdaR : ℝ
  alphaRing : ℝ

/-- Modelled from the spec: a regularization configuration selecting the
regularizer kind, its weight and its inner iteration budget (section 3). -/
structure RegConfig where
  kind : String
  weight : ℝ
  innerIters : Nat

/-- Fidelity kinds the solver recognizes (the demo scripts list
LS, PWLS, Huber, GH and Student). -/
def recognizedFidelities : List String := ["LS", "PWLS", "Huber", "GH", "Student"]

/-- Regularizer kinds the solver recognizes (the demo scripts use
ROF_TV). -/
def recognizedRegularizers : List String := ["ROF_TV"]

/-- Soft-threshold (L1 proximal) scalar map. -/
def softThresh (lam v : ℝ) : ℝ :=
  if lam < v then v - lam else if v < -lam then v + lam else 0

/-- Huber influence function: linear near zero, capped beyond the
threshold (section 4.2). -/
def huberPsi (T r : ℝ) : ℝ :=
  if |r| ≤ T then r else T * (if 0 ≤ r then 1 else -1)

/-- Per-detector-column means of a sinogram (used by the Group-Huber ring
term). -/
def colMeans (s : Sinogram) : List ℝ :=
  match s with
  | [] => []
  | r :: rs => smul (1 / (1 + (rs.length : ℝ))) (rs.foldl vadd r)

/-- Modelled from the spec: the data-fidelity gradient (section 4.2).
Each variant transforms the forward-projection residual and
back-projects it; Group-Huber additionally updates a per-detector-column
ring bias via a soft-threshold rule weighted by alphaRing and lambdaR
(the spec fixes only the shape of that rule, so a representative
soft-threshold update is instantiated here), and uses the bias-corrected
residual.  The Student-t variant is listed but its gradient formula is
left unspecified by section 4.2, so it falls back to the LS residual. -/
def fidGrad (proj : Projector) (cfg : FidelityConfig) (angles : AngleSet)
    (b : Sinogram) (x : Image) (ring : List ℝ) : Image × List ℝ :=
  let r := sinoSub (proj.forward x angles) b
  if cfg.kind = "PWLS" then (proj.backward (sinoMul cfg.pwlsWeights r) angles, ring)
  else if cfg.kind = "Huber" then
    (proj.backward (r.map (List.map (huberPsi cfg.huberThreshold))) angles, ring)
  else if cfg.kind = "GH" then
    let ring2 := List.zipWith
      (fun old m => softThresh cfg.lambdaR (old + cfg.alphaRing * m)) ring (colMeans r)
    (proj.backward (r.map (fun row => vsub row ring2)) angles, ring2)
  else (proj.backward r angles, ring)

/-- The FISTA solver state: current estimate, momentum point, momentum
scalar, and the Group-Huber ring bias carried across iterations. -/
structure FistaState where
  x : Image
  y : Image
  t : ℝ
  ring : List ℝ

/-- The FISTA momentum-scalar recurrence (section 4.1 step 6). -/
def tNext (t : ℝ) : ℝ := (1 + Real.sqrt (1 + 4 * t ^ 2)) / 2

/-- The FISTA momentum extrapolation (section 4.1 step 6). -/
def momentum (xNew xOld : Image) (t tN : ℝ) : Image :=
  vadd xNew (smul ((t - 1) / tN) (vsub xNew xOld))

/-- Modelled from the spec: one FISTA gradient/proximal/momentum update
over the given angles and sinogram rows (section 4.1 steps 2-6): gradient
of the fidelity at the momentum point y, gradient step with step size 1/L,
optional nonnegativity clamp, optional regularizer proximal step, then
the momentum update. -/
def innerUpdate (proj : Projector) (prox : Regularizer) (cfg : FidelityConfig)
    (L : ℝ) (reg : Option RegConfig) (nonneg : Bool)
    (angles : AngleSet) (b : Sinogram) (s : FistaState) : FistaState :=
  let gr := fidGrad proj cfg angles b s.y s.ring
  let xRaw := vsub s.y (smul (1 / L) gr.1)
  let xCl := if nonneg then clamp0 xRaw else xRaw
  let xNew := match reg with
    | none => xCl
    | some rc => prox xCl rc.weight rc.innerIters
  let tN := tNext s.t
  { x := xNew, y := momentum xNew s.x s.t tN, t := tN, ring := gr.2 }

/-- Elements of a list at positions congruent to the offset modulo the
stride (angularly-interleaved subset extraction, section 4.3): the first
argument is the stride, the second counts down to the next kept element. -/
def strideAux (k : Nat) : Nat → List α → List α
  | _, [] => []
  | 0, a :: rest => a :: strideAux k (k - 1) rest
  | c + 1, _ :: rest => strideAux k c rest

/-- Modelled from the spec: partition of the angle set and the sinogram
rows into OS_number disjoint, angularly-interleaved subsets
(section 4.3). -/
def subsetsOf (k : Nat) (angles : AngleSet) (b : Sinogram) :
    List (AngleSet × Sinogram) :=
  (List.range k).map (fun i => (strideAux k i angles, strideAux k i b))

/-- Modelled from the spec: one outer ordered-subsets iteration, namely
one inner gradient update per subset, cycling through the subsets in a
fixed round-robin order, momentum bookkeeping applied once per inner
update (section 4.3). -/
def osOuter (proj : Projector) (prox : Regularizer) (cfg : FidelityConfig)
    (L : ℝ) (reg : Option RegConfig) (nonneg : Bool)
    (subs : List (AngleSet × Sinogram)) (s : FistaState) : FistaState :=
  subs.foldl (fun st p => innerUpdate proj prox cfg L reg nonneg p.1 p.2 st) s

/-- Modelled from the spec: the early-stop test of section 4.1 step 7 —
with a tolerance configured, stop once the relative change of the
estimate drops below it; with no tolerance configured, never stop
early. -/
def stops (tol : Option ℝ) (s sN : FistaState) : Prop :=
  match tol with
  | none => False
  | some t => norm2 (vsub sN.x s.x) / norm2 s.x < t

/-- Modelled from the spec: the outer iteration loop, running the given
outer update up to the iteration budget with the optional early stop
(section 4.1 steps 2-7). -/
def driverLoop (tol : Option ℝ) (outer : FistaState → FistaState) :
    Nat → FistaState → FistaState
  | 0, s => s
  | n + 1, s =>
    let sN := outer s
    if stops tol s sN then sN else driverLoop tol outer n sN

/-- Modelled from the spec: the initial solver state — estimate x0 zero
(or caller-supplied), momentum point y0 = x0, momentum scalar t0 = 1
(section 4.1 step 1), ring bias zero per detector column. -/
def initState (initEst : Option Image) (imSize : Nat) (b : Sinogram) :
    FistaState :=
  let x0 := initEst.getD (List.replicate imSize 0)
  { x := x0, y := x0, t := 1, ring := List.replicate (b.headD []).length 0 }

/-- Modelled from the spec: the outer update selected by the os_number
option — unset runs the classical full-data FISTA update, a set subset
count runs the ordered-subsets outer iteration (section 4.3). -/
def outerOf (proj : Projector) (prox : Regularizer) (cfg : FidelityConfig)
    (L : ℝ) (reg : Option RegConfig) (nonneg : Bool) (os : Option Nat)
    (angles : AngleSet) (b : Sinogram) : FistaState → FistaState :=
  match os with
  | none => innerUpdate proj prox cfg L reg nonneg angles b
  | some k => osOuter proj prox cfg L reg nonneg (subsetsOf k angles b)

/-- The solver state reached after a given number of outer iterations:
the iterate sequence of one reconstruction run. -/
def runTrace (proj : Projector) (prox : Regularizer) (cfg : FidelityConfig)
    (L : ℝ) (reg : Option RegConfig) (nonneg : Bool) (os : Option Nat)
    (tol : Option ℝ) (angles : AngleSet) (b : Sinogram)
    (initEst : Option Image) (imSize : Nat) (k : Nat) : FistaState :=
  driverLoop tol (outerOf proj prox cfg L reg nonneg os angles b) k
    (initState initEst imSize b)

/-- The image produced by the solver core after the configured number of
iterations (a nonpositive iteration count runs zero iterations, section
4.1 edge cases). -/
def fistaRun (proj : Projector) (prox : Regularizer) (cfg : FidelityConfig)
    (L : ℝ) (reg : Option RegConfig) (nonneg : Bool) (os : Option Nat)
    (tol : Option ℝ) (angles : AngleSet) (b : Sinogram)
    (initEst : Option Image) (imSize : Nat) (iterations : Int) : Image :=
  (runTrace proj prox cfg L reg nonneg os tol angles b initEst imSize
    iterations.toNat).x

/-- Modelled from the spec: the error taxonomy of section 7. -/
inductive RecError where
  | InvalidParameter
  | NumericalDivergence
  | CollaboratorFailure
deriving DecidableEq

/-- Modelled from the spec: the caller-input checks of section 7 — a
positive Lipschitz constant, a nonnegative iteration count, recognized
fidelity and regularization kinds, and a sinogram whose row count matches
the angle set. -/
def validParams (cfg : FidelityConfig) (iterations : Int) (L : ℝ)
    (reg : Option RegConfig) (angles : AngleSet) (b : Sinogram) : Prop :=
  0 < L ∧ 0 ≤ iterations ∧ cfg.kind ∈ recognizedFidelities ∧
    (∀ rc ∈ reg, rc.kind ∈ recognizedRegularizers) ∧
    b.length = angles.length

/-- Modelled from the spec: the public reconstruct entry point (section
6) — validate the caller's parameters per section 7, then run the FISTA /
ordered-subsets core; an invalid parameter is surfaced synchronously as
InvalidParameter and no image is produced. -/
def reconstruct (proj : Projector) (prox : Regularizer)
    (cfg : FidelityConfig) (iterations : Int) (L : ℝ)
    (reg : Option RegConfig) (nonneg : Bool) (os : Option Nat)
    (tol : Option ℝ) (angles : AngleSet) (b : Sinogram)
    (initEst : Option Image) (imSize : Nat) : Except RecError Image :=
  if validParams cfg iterations L reg angles b then
    Except.ok (fistaRun proj prox cfg L reg nonneg os tol angles b initEst
      imSize iterations)
  else
    Except.error RecError.InvalidParameter

/-- The normal operator A^T A of a projector at a fixed geometry. -/
def applyAtA (proj : Projector) (angles : AngleSet) (v : Image) : Image :=
  proj.backward (proj.forward v angles) angles

/-- Modelled from the spec: the power-method loop of section 4.4 —
repeatedly apply A^T A to a vector, normalizing each iteration, until the
estimated norm stabilizes within the tolerance or the iteration cap is
reached; the current spectral-norm estimate is returned. -/
def powerLoop (proj : Projector) (angles : AngleSet) (tol : ℝ) :
    Nat → Image → ℝ → ℝ
  | 0, _, lam => lam
  | n + 1, v, lam =>
    let w := applyAtA proj angles v
    let lamN := norm2 w
    if |lamN - lam| ≤ tol then lamN
    else powerLoop proj angles tol n (smul (1 / lamN) w) lamN

/-- Modelled from the spec: estimate_lipschitz (section 6), the power
method of section 4.4 started from a caller-supplied vector. -/
def estimateLipschitz (proj : Projector) (angles : AngleSet) (v0 : Image)
    (cap : Nat) (tol : ℝ) : ℝ :=
  powerLoop proj angles tol cap v0 0

/-- The identity projector: the sinogram of a volume at a single angle is
the volume itself, and back-projection reads it back. -/
def identityProjector : Projector :=
  { forward := fun v _ => [v], backward := fun s _ => s.headD [] }

/-- A vector is nonnegative when none of its elements is negative. -/
def Nonneg (v : Image) : Prop := ∀ a ∈ v, 0 ≤ a

/-- A regularizer that returns its input unchanged (a concrete instance of
the Regularizer collaborator used to exercise the solver on concrete
inputs). -/
def idProx : Regularizer := fun x _ _ => x

/-- A least-squares fidelity configuration with all auxiliary numeric
parameters zero. -/
def cfgLS : FidelityConfig :=
  { kind := "LS", huberThreshold := 0, pwlsWeights := [], lambdaR := 0,
    alphaRing := 0 }

/-- The full argument bundle of one reconstruction run. -/
structure ReconArgs where
  proj : Projector
  prox : Regularizer
  cfg : FidelityConfig
  iterations : Int
  L : ℝ
  reg : Option RegConfig
  nonneg : Bool
  os : Option Nat
  tol : Option ℝ
  angles : AngleSet
  b : Sinogram
  initEst : Option Image
  imSize : Nat

/-- The iterate sequence of a reconstruction run, as a function of the
bundled arguments. -/
def runTraceA (a : ReconArgs) : Nat → FistaState :=
  runTrace a.proj a.prox a.cfg a.L a.reg a.nonneg a.os a.tol a.angles a.b
    a.initEst a.imSize

/-- The reconstruct entry point, as a function of the bundled
arguments. -/
def reconstructA (a : ReconArgs) : Except RecError Image :=
  reconstruct a.proj a.prox a.cfg a.iterations a.L a.reg a.nonneg a.os a.tol
    a.angles a.b a.initEst a.imSize

/-- A concrete argument bundle: identity projector over a single angle,
least-squares fidelity, one iteration, unit Lipschitz constant. -/
def args0 : ReconArgs :=
  { proj := identityProjector, prox := idProx, cfg := cfgLS, iterations := 1,
    L := 1, reg := none, nonneg := true, os := none, tol := none,
    angles := [0], b := [[0]], initEst := none, imSize := 1 }

/-! ## Theorems -/

/-- Claim C10: at the public FISTA interface exercised by the demos, the
Huber robust fidelity is selected per call by the numeric argument
huber_data_threshold while the reconstructor's configured datafidelity
stays LS, and the Group-Huber ring-aware fidelity is selected per call by
lambdaR_L1 and alpha_ring with datafidelity LS — the fidelity variant is
not chosen by a tagged configuration kind. -/
theorem huber_gh_selected_per_call :
    huberSectionConfig.datafidelity = "LS" ∧
    huberCall.huber_data_threshold = some 4 ∧
    ghSectionConfig.datafidelity = "LS" ∧
    ghCall.lambdaR_L1 = some (25/10000) ∧
    ghCall.alpha_ring = some 150 ∧
    ghCall.huber_data_threshold = none ∧
    huberCall.lambdaR_L1 = none ∧
    huberCall.alpha_ring = none :=
  ⟨rfl, rfl, rfl, rfl, rfl, rfl, rfl, rfl⟩

/-- Claim C9: after the elementwise clamp at line 74 of
DemoFISTA_artifacts2D.py, the sinogram noisy_zing_stripe passed to every
subsequent FBP and FISTA reconstruction call contains no negative
element, whatever raw sinogram the artifact generators produced. -/
theorem noisy_zing_stripe_nonneg (raw : List (List ℚ)) (row : List ℚ)
    (x : ℚ) (hrow : row ∈ noisyZingStripe raw) (hx : x ∈ row) : 0 ≤ x := by
  unfold noisyZingStripe clampSino at hrow
  simp only [List.mem_map] at hrow
  obtain ⟨r0, _, rfl⟩ := hrow
  simp only [List.mem_map] at hx
  obtain ⟨v, _, rfl⟩ := hx
  by_cases h : v < 0
  · simp [h]
  · simp [h, le_of_not_lt h]

/-- Witness for claim C9 at a concrete raw sinogram. -/
theorem noisy_zing_stripe_nonneg_wit :
    (([0, 2] : List ℚ) ∈ noisyZingStripe [[-3, 2]] ∧
      (2 : ℚ) ∈ ([0, 2] : List ℚ)) ∧ (0 : ℚ) ≤ 2 :=
  ⟨⟨by decide, by decide⟩,
    noisy_zing_stripe_nonneg [[-3, 2]] [0, 2] 2 (by decide) (by decide)⟩

/-- Claim C4: every FISTA inner update follows the stated momentum
recurrence — the momentum scalar becomes (1 + sqrt(1 + 4 t^2)) / 2, the
momentum point becomes x_new + ((t - 1)/t_new) (x_new - x_old) and is the
point at which the next gradient is evaluated, the gradient step is taken
at the current momentum point y, and the initial state has t0 = 1 and
y0 = x0. -/
theorem fista_momentum_recurrence (proj : Projector) (prox : Regularizer)
    (cfg : FidelityConfig) (L : ℝ) (reg : Option RegConfig) (nonneg : Bool)
    (angles : AngleSet) (b : Sinogram) (s : FistaState)
    (initEst : Option Image) (imSize : Nat) :
    (innerUpdate proj prox cfg L reg nonneg angles b s).t
        = (1 + Real.sqrt (1 + 4 * s.t ^ 2)) / 2 ∧
    (innerUpdate proj prox cfg L reg nonneg angles b s).y
        = vadd (innerUpdate proj prox cfg L reg nonneg angles b s).x
            (smul ((s.t - 1) / ((1 + Real.sqrt (1 + 4 * s.t ^ 2)) / 2))
              (vsub (innerUpdate proj prox cfg L reg nonneg angles b s).x s.x)) ∧
    (innerUpdate proj prox cfg L reg nonneg angles b s).x
        = (let xRaw := vsub s.y
            (smul (1 / L) (fidGrad proj cfg angles b s.y s.ring).1)
           let xCl := if nonneg then clamp0 xRaw else xRaw
           match reg with
           | none => xCl
           | some rc => prox xCl rc.weight rc.innerIters) ∧
    (initState initEst imSize b).t = 1 ∧
    (initState initEst imSize b).y = (initState initEst imSize b).x :=
  ⟨rfl, rfl, rfl, rfl, rfl⟩

/-- Claim C5: reconstruct fails with InvalidParameter exactly when the
caller supplies a nonpositive Lipschitz constant, a negative iteration
count, an unrecognized fidelity or regularization kind, or a sinogram
whose shape does not match the angle set; a rejected call produces no
image. -/
theorem reconstruct_invalid_parameter_iff (proj : Projector)
    (prox : Regularizer) (cfg : FidelityConfig) (iterations : Int) (L : ℝ)
    (reg : Option RegConfig) (nonneg : Bool) (os : Option Nat)
    (tol : Option ℝ) (angles : AngleSet) (b : Sinogram)
    (initEst : Option Image) (imSize : Nat) :
    (reconstruct proj prox cfg iterations L reg nonneg os tol angles b
        initEst imSize = Except.error RecError.InvalidParameter ↔
      (L ≤ 0 ∨ iterations < 0 ∨ cfg.kind ∉ recognizedFidelities ∨
        (∃ rc ∈ reg, rc.kind ∉ recognizedRegularizers) ∨
        b.length ≠ angles.length)) ∧
    ∀ img : Image,
      reconstruct proj prox cfg iterations L reg nonneg os tol angles b
          initEst imSize = Except.error RecError.InvalidParameter →
        reconstruct proj prox cfg iterations L reg nonneg os tol angles b
          initEst imSize ≠ Except.ok img := by
  constructor
  · unfold reconstruct
    split_ifs with h
    · constructor
      · intro he
        exact absurd he (by simp)
      · intro hr
        exfalso
        obtain ⟨h1, h2, h3, h4, h5⟩ := h
        rcases hr with hL | hi | hk | ⟨rc, hrc, hnk⟩ | hlen
        · exact absurd h1 (not_lt.mpr hL)
        · exact absurd h2 (not_le.mpr hi)
        · exact hk h3
        · exact hnk (h4 rc hrc)
        · exact hlen h5
    · constructor
      · intro _
        by_contra hc
        push_neg at hc
        exact h ⟨hc.1, hc.2.1, hc.2.2.1, hc.2.2.2.1, hc.2.2.2.2⟩
      · intro _
        rfl
  · intro img he hok
    rw [he] at hok
    exact absurd hok (by simp)

/-- Witness for claim C5: a zero Lipschitz constant is rejected as
InvalidParameter at a concrete call. -/
theorem reconstruct_invalid_parameter_iff_wit :
    reconstruct identityProjector idProx cfgLS 1 0 none true none none [0]
        [[0]] none 1 = Except.error RecError.InvalidParameter :=
  (reconstruct_invalid_parameter_iff identityProjector idProx cfgLS 1 0
      none true none none [0] [[0]] none 1).1.mpr (Or.inl le_rfl)

/-- Claim C2: with a valid configuration, calling reconstruct with an
iteration count of 0 returns the caller-supplied initial estimate
unchanged, and the solver core returns the initial estimate unchanged for
every iteration count at most 0. -/
theorem fista_zero_iterations (proj : Projector) (prox : Regularizer)
    (cfg : FidelityConfig) (L : ℝ) (reg : Option RegConfig) (nonneg : Bool)
    (os : Option Nat) (tol : Option ℝ) (angles : AngleSet) (b : Sinogram)
    (x0 : Image) (imSize : Nat)
    (hv : validParams cfg 0 L reg angles b) :
    reconstruct proj prox cfg 0 L reg nonneg os tol angles b (some x0)
        imSize = Except.ok x0 ∧
    ∀ k : Int, k ≤ 0 →
      fistaRun proj prox cfg L reg nonneg os tol angles b (some x0) imSize k
        = x0 := by
  constructor
  · unfold reconstruct
    rw [if_pos hv]
    rfl
  · intro k hk
    unfold fistaRun
    rw [Int.toNat_of_nonpos hk]
    rfl

/-- Witness for claim C2 at a concrete valid configuration, with
iteration counts 0 and -3. -/
theorem fista_zero_iterations_wit :
    reconstruct identityProjector idProx cfgLS 0 1 none true none none [0]
        [[0]] (some [5]) 1 = Except.ok [5] ∧
    fistaRun identityProjector idProx cfgLS 1 none true none none [0] [[0]]
        (some [5]) 1 (-3) = [5] := by
  have hv : validParams cfgLS 0 1 none [0] [[0]] :=
    ⟨one_pos, le_refl 0, by decide, by simp, rfl⟩
  exact ⟨(fista_zero_iterations identityProjector idProx cfgLS 1 none true
      none none [0] [[0]] [5] 1 hv).1,
    (fista_zero_iterations identityProjector idProx cfgLS 1 none true none
      none [0] [[0]] [5] 1 hv).2 (-3) (by norm_num)⟩

/-- Claim C6: reconstruction is deterministic — two runs with identical
bundled inputs produce the identical iterate sequence and the identical
result. -/
theorem reconstruct_deterministic (a₁ a₂ : ReconArgs) (h : a₁ = a₂) :
    runTraceA a₁ = runTraceA a₂ ∧ reconstructA a₁ = reconstructA a₂ := by
  subst h
  exact ⟨rfl, rfl⟩

/-- Witness for claim C6 at a concrete argument bundle. -/
theorem reconstruct_deterministic_wit :
    runTraceA args0 = runTraceA args0 ∧
    reconstructA args0 = reconstructA args0 :=
  reconstruct_deterministic args0 args0 rfl

/-- Subset extraction with stride one keeps the whole list. -/
theorem strideAux_one {α : Type _} (l : List α) : strideAux 1 0 l = l := by
  induction l with
  | nil => rfl
  | cons a rest ih => simp [strideAux, ih]

/-- Partitioning into a single ordered subset yields the full angle set
and the full sinogram. -/
theorem subsetsOf_one (angles : AngleSet) (b : Sinogram) :
    subsetsOf 1 angles b = [(angles, b)] := by
  have h1 : List.range 1 = [0] := rfl
  simp [subsetsOf, h1, strideAux_one]

/-- Claim C3: the ordered-subsets driver with one subset is equivalent to
the classical non-OS solver — with os_number = 1 every iterate equals the
corresponding iterate with os_number unset, and reconstruct returns the
same result, for identical other parameters. -/
theorem fista_os_one_degenerate (proj : Projector) (prox : Regularizer)
    (cfg : FidelityConfig) (L : ℝ) (reg : Option RegConfig) (nonneg : Bool)
    (tol : Option ℝ) (angles : AngleSet) (b : Sinogram)
    (initEst : Option Image) (imSize : Nat) :
    (∀ k : Nat,
      runTrace proj prox cfg L reg nonneg (some 1) tol angles b initEst
          imSize k
        = runTrace proj prox cfg L reg nonneg none tol angles b initEst
            imSize k) ∧
    ∀ iterations : Int,
      reconstruct proj prox cfg iterations L reg nonneg (some 1) tol angles
          b initEst imSize
        = reconstruct proj prox cfg iterations L reg nonneg none tol angles
            b initEst imSize := by
  have houter : outerOf proj prox cfg L reg nonneg (some 1) angles b
      = outerOf proj prox cfg L reg nonneg none angles b := by
    funext s
    simp only [outerOf, subsetsOf_one, osOuter, List.foldl_cons,
      List.foldl_nil]
  have htrace : ∀ k : Nat,
      runTrace proj prox cfg L reg nonneg (some 1) tol angles b initEst
          imSize k
        = runTrace proj prox cfg L reg nonneg none tol angles b initEst
            imSize k := by
    intro k
    unfold runTrace
    rw [houter]
  refine ⟨htrace, ?_⟩
  intro iterations
  unfold reconstruct
  split_ifs with h
  · unfold fistaRun
    rw [htrace]
  · rfl

/-- Claim C7: a regularization proximal step with weight zero is the
identity, so reconstruct with a regularization configuration of weight 0
(and a recognized kind) produces exactly the same iterate sequence and
result as reconstruct with regularization disabled, all other parameters
equal. -/
theorem fista_zero_weight_reg_identity (proj : Projector)
    (prox : Regularizer) (cfg : FidelityConfig) (L : ℝ) (nonneg : Bool)
    (os : Option Nat) (tol : Option ℝ) (angles : AngleSet) (b : Sinogram)
    (initEst : Option Image) (imSize : Nat) (rc : RegConfig)
    (hw : rc.weight = 0) (hk : rc.kind ∈ recognizedRegularizers)
    (hprox : ∀ x n, prox x 0 n = x) :
    (∀ k : Nat,
      runTrace proj prox cfg L (some rc) nonneg os tol angles b initEst
          imSize k
        = runTrace proj prox cfg L none nonneg os tol angles b initEst
            imSize k) ∧
    ∀ iterations : Int,
      reconstruct proj prox cfg iterations L (some rc) nonneg os tol angles
          b initEst imSize
        = reconstruct proj prox cfg iterations L none nonneg os tol angles
            b initEst imSize := by
  have hinner : ∀ (a : AngleSet) (bb : Sinogram) (s : FistaState),
      innerUpdate proj prox cfg L (some rc) nonneg a bb s
        = innerUpdate proj prox cfg L none nonneg a bb s := by
    intro a bb s
    simp only [innerUpdate, hw, hprox]
  have houter : outerOf proj prox cfg L (some rc) nonneg os angles b
      = outerOf proj prox cfg L none nonneg os angles b := by
    funext s
    cases os with
    | none => exact hinner angles b s
    | some k =>
      simp only [outerOf, osOuter]
      exact List.foldl_ext _ _ s (fun st p _ => hinner p.1 p.2 st)
  have htrace : ∀ k : Nat,
      runTrace proj prox cfg L (some rc) nonneg os tol angles b initEst
          imSize k
        = runTrace proj prox cfg L none nonneg os tol angles b initEst
            imSize k := by
    intro k
    unfold runTrace
    rw [houter]
  refine ⟨htrace, ?_⟩
  intro iterations
  have hvp : validParams cfg iterations L (some rc) angles b ↔
      validParams cfg iterations L none angles b := by
    unfold validParams
    constructor
    · rintro ⟨h1, h2, h3, _, h5⟩
      exact ⟨h1, h2, h3, by simp, h5⟩
    · rintro ⟨h1, h2, h3, _, h5⟩
      refine ⟨h1, h2, h3, ?_, h5⟩
      intro rc2 hrc2
      simp only [Option.mem_def, Option.some.injEq] at hrc2
      rw [← hrc2]
      exact hk
  unfold reconstruct
  split_ifs with h1 h2 h2
  · unfold fistaRun
    rw [htrace]
  · exact absurd (hvp.mp h1) h2
  · exact absurd (hvp.mpr h2) h1
  · rfl

/-- Witness for claim C7 at a concrete configuration: ROF_TV regularizer
with weight zero, the identity proximal collaborator, two outer
iterations and iteration budget 7. -/
theorem fista_zero_weight_reg_identity_wit :
    (runTrace identityProjector idProx cfgLS 1
        (some (RegConfig.mk "ROF_TV" 0 5)) true none none [0] [[0]] none 1 2
      = runTrace identityProjector idProx cfgLS 1 none true none none [0]
          [[0]] none 1 2) ∧
    reconstruct identityProjector idProx cfgLS 7 1
        (some (RegConfig.mk "ROF_TV" 0 5)) true none none [0] [[0]] none 1
      = reconstruct identityProjector idProx cfgLS 7 1 none true none none
          [0] [[0]] none 1 :=
  ⟨(fista_zero_weight_reg_identity identityProjector idProx cfgLS 1 true
      none none [0] [[0]] none 1 (RegConfig.mk "ROF_TV" 0 5) rfl
      (by decide) (fun _ _ => rfl)).1 2,
    (fista_zero_weight_reg_identity identityProjector idProx cfgLS 1 true
      none none [0] [[0]] none 1 (RegConfig.mk "ROF_TV" 0 5) rfl
      (by decide) (fun _ _ => rfl)).2 7⟩

/-- The elementwise clamp produces a nonnegative vector. -/
theorem clamp0_nonneg (v : Image) : Nonneg (clamp0 v) := by
  intro a ha
  unfold clamp0 at ha
  simp only [List.mem_map] at ha
  obtain ⟨x, _, rfl⟩ := ha
  exact le_max_right x 0

/-- With the nonnegativity constraint enabled and a
nonnegativity-preserving proximal collaborator, every inner update
produces a nonnegative estimate. -/
theorem innerUpdate_nonneg (proj : Projector) (prox : Regularizer)
    (cfg : FidelityConfig) (L : ℝ) (reg : Option RegConfig)
    (hprox : ∀ x w n, Nonneg x → Nonneg (prox x w n))
    (a : AngleSet) (bb : Sinogram) (s : FistaState) :
    Nonneg ((innerUpdate proj prox cfg L reg true a bb s).x) := by
  unfold innerUpdate
  cases reg with
  | none => exact clamp0_nonneg _
  | some rc => exact hprox _ _ _ (clamp0_nonneg _)

/-- An ordered-subsets outer iteration over at least one subset produces
a nonnegative estimate when the constraint is enabled. -/
theorem osOuter_nonneg (proj : Projector) (prox : Regularizer)
    (cfg : FidelityConfig) (L : ℝ) (reg : Option RegConfig)
    (hprox : ∀ x w n, Nonneg x → Nonneg (prox x w n)) :
    ∀ (subs : List (AngleSet × Sinogram)) (s : FistaState), subs ≠ [] →
      Nonneg ((osOuter proj prox cfg L reg true subs s).x) := by
  intro subs
  induction subs with
  | nil => intro s h; exact absurd rfl h
  | cons p rest ih =>
    intro s _
    cases rest with
    | nil => exact innerUpdate_nonneg proj prox cfg L reg hprox p.1 p.2 s
    | cons q rest2 =>
      exact ih (innerUpdate proj prox cfg L reg true p.1 p.2 s) (by simp)

/-- The iteration loop preserves nonnegativity of the estimate when every
outer update produces a nonnegative estimate. -/
theorem driverLoop_nonneg_preserve (tol : Option ℝ)
    (outer : FistaState → FistaState)
    (hout : ∀ s, Nonneg ((outer s).x)) :
    ∀ (n : Nat) (s : FistaState), Nonneg s.x →
      Nonneg ((driverLoop tol outer n s).x) := by
  intro n
  induction n with
  | zero => intro s hs; exact hs
  | succ m ih =>
    intro s _
    unfold driverLoop
    dsimp only
    split_ifs with h
    · exact hout s
    · exact ih _ (hout s)

/-- After at least one iteration of the loop the estimate is nonnegative
when every outer update produces a nonnegative estimate, whatever the
starting estimate was. -/
theorem driverLoop_nonneg_pos (tol : Option ℝ)
    (outer : FistaState → FistaState)
    (hout : ∀ s, Nonneg ((outer s).x)) (n : Nat) (hn : 1 ≤ n)
    (s : FistaState) : Nonneg ((driverLoop tol outer n s).x) := by
  cases n with
  | zero => exact absurd hn (by decide)
  | succ m =>
    unfold driverLoop
    dsimp only
    split_ifs with h
    · exact hout s
    · exact driverLoop_nonneg_preserve tol outer hout m _ (hout s)

/-- Claim C1 (amended): with the nonnegativity constraint enabled, at
least one iteration performed, at least one ordered subset, and a
proximal collaborator that preserves nonnegativity (as the identity and
any clamp-respecting regularizer do, and trivially when regularization is
disabled), the image returned by reconstruct contains no negative
element: the post-step clamp is applied in every inner update, so the
final estimate is elementwise nonnegative. -/
theorem fista_nonnegativity_amended (proj : Projector) (prox : Regularizer)
    (cfg : FidelityConfig) (L : ℝ) (reg : Option RegConfig)
    (os : Option Nat) (tol : Option ℝ) (angles : AngleSet) (b : Sinogram)
    (initEst : Option Image) (imSize : Nat) (iterations : Int)
    (img : Image)
    (hprox : ∀ x w n, Nonneg x → Nonneg (prox x w n))
    (hos : 1 ≤ os.getD 1) (hit : 1 ≤ iterations)
    (himg : reconstruct proj prox cfg iterations L reg true os tol angles b
      initEst imSize = Except.ok img) :
    Nonneg img := by
  unfold reconstruct at himg
  split_ifs at himg with hv
  · simp only [Except.ok.injEq] at himg
    subst himg
    unfold fistaRun runTrace
    apply driverLoop_nonneg_pos
    · intro s
      cases os with
      | none => exact innerUpdate_nonneg proj prox cfg L reg hprox angles b s
      | some k =>
        have hk : 1 ≤ k := by simpa using hos
        apply osOuter_nonneg proj prox cfg L reg hprox
        simp [subsetsOf, List.range_eq_nil]
        omega
    · omega

/-- Counterexample to claim C1 as stated: with the nonnegativity
constraint enabled but an iteration count of 0, reconstruct returns the
caller-supplied initial estimate unchanged (as the spec's own edge case
requires), so an initial estimate with a negative element is returned
with that negative element intact. -/
theorem fista_nonnegativity_cex :
    reconstruct identityProjector idProx cfgLS 0 1 none true none none [0]
        [[0]] (some [-1]) 1 = Except.ok [-1] ∧
    (-1 : ℝ) ∈ [(-1 : ℝ)] ∧ (-1 : ℝ) < 0 := by
  refine ⟨?_, by simp, by norm_num⟩
  unfold reconstruct
  rw [if_pos ⟨one_pos, by decide, by decide, by simp, rfl⟩]
  rfl

/-- Witness for the amended claim C1: one iteration of the concrete
identity-projector run returns a nonnegative image. -/
theorem fista_nonnegativity_amended_wit : Nonneg [(0 : ℝ)] :=
  fista_nonnegativity_amended identityProjector idProx cfgLS 1 none none
    none [0] [[0]] none 1 1 [0] (fun _ _ _ h => h) (by decide) (by decide)
    (by
      unfold reconstruct
      rw [if_pos ⟨one_pos, by decide, by decide, by simp, rfl⟩]
      unfold fistaRun runTrace
      simp only [driverLoop, ite_self]
      simp only [outerOf, innerUpdate, initState, fidGrad,
        identityProjector, cfgLS, sinoSub, vsub, smul, clamp0]
      rw [if_neg (show ¬("LS" = "PWLS") by decide),
        if_neg (show ¬("LS" = "Huber") by decide),
        if_neg (show ¬("LS" = "GH") by decide)]
      norm_num [vsub])

/-- Claim C8: the power-method Lipschitz estimator applied to the
identity projector with a single projection angle returns 1.0 within the
stated tolerance — it iterates the normal operator on a normalized
vector, normalizing each iteration, until the norm estimate stabilizes
within the tolerance or the iteration cap is reached. -/
theorem powermethod_identity_returns_one (angle : ℝ) (v0 : Image)
    (cap : Nat) (tol : ℝ) (hv : norm2 v0 = 1) (hcap : 2 ≤ cap)
    (ht0 : 0 ≤ tol) (ht1 : tol < 1) :
    |estimateLipschitz identityProjector [angle] v0 cap tol - 1| ≤ tol := by
  have hstep : ∀ (n : Nat) (v : Image) (lam : ℝ),
      powerLoop identityProjector [angle] tol (n + 1) v lam
        = if |norm2 v - lam| ≤ tol then norm2 v
          else powerLoop identityProjector [angle] tol n
              (smul (1 / norm2 v) v) (norm2 v) :=
    fun n v lam => rfl
  obtain ⟨m, rfl⟩ : ∃ m, cap = m + 2 := ⟨cap - 2, by omega⟩
  unfold estimateLipschitz
  rw [hstep, hv]
  rw [if_neg (by rw [sub_zero, abs_one]; exact not_le.mpr (by linarith))]
  have hsm : smul (1 / (1 : ℝ)) v0 = v0 := by simp [smul]
  rw [hsm, hstep, hv]
  rw [if_pos (by simpa using ht0)]
  simpa using ht0

/-- Witness for claim C8: the unit starting vector, cap 2 and tolerance
one half. -/
theorem powermethod_identity_returns_one_wit :
    |estimateLipschitz identityProjector [0] [1] 2 (1/2) - 1| ≤ 1/2 :=
  powermethod_identity_returns_one 0 [1] 2 (1/2)
    (by simp [norm2, normSq]) (by decide) (by norm_num) (by norm_num)

end ToMoBAR
